import Mathlib

/-!
Verification development for the `doom-front` CVARINFO frontend.

This file gives a shallow embedding, in Lean, of the repository's core:
the string interner and `StringHandle` capability from `src/lib.rs`, and
the CVARINFO grammar engine from `src/cvarinfo.rs` (a `rust-peg` PEG
grammar).  Parsers are modelled as total functions
`List Char → Option (result × List Char)` (the remaining input is the
second component); ordered choice, greedy repetition and PEG backtracking
are transcribed rule by rule from the source.  Byte positions are
modelled as character positions (every input considered here is ASCII,
where the two coincide).  `rust-peg`'s `quiet!`/`expected!` combinators
only shape error messages, so failure is modelled as `none`.
-/

set_option maxHeartbeats 1000000
set_option maxRecDepth 100000

namespace DoomFront

/-- `Span` from `src/lib.rs`: a half-open byte-offset range. -/
structure Span where
  start : Nat
  stop : Nat
deriving DecidableEq, Repr

/-- `Span::combine` from `src/lib.rs`: componentwise maxima of the two
spans' `start` and `end` fields. -/
def Span.combine (a b : Span) : Span :=
  { start := a.start.max b.start, stop := a.stop.max b.stop }

/-- The string interner from `src/lib.rs`, an insertion-ordered
deduplicating table (`IndexSet<Box<str>>`) modelled as a duplicate-free
insertion-ordered list. -/
abbrev Interner := List String

/-- `Interner::try_lookup`: `IndexSet::get_index_of`, the index of the
first (and only) occurrence of `s`. -/
def Interner.tryLookup (it : Interner) (s : String) : Option Nat :=
  match it with
  | [] => none
  | a :: rest => if a = s then some 0 else (Interner.tryLookup rest s).map (· + 1)

/-- `Interner::add`: `IndexSet::insert_full`, which returns the existing
index when the string is already present and otherwise appends it. -/
def Interner.add (it : Interner) (s : String) : Nat × Interner :=
  match it.tryLookup s with
  | some i => (i, it)
  | none => (it.length, it ++ [s])

/-- `Interner::get`: resolves an index to its stored text.  The Rust code
indexes the `IndexSet` directly and panics when the index is out of
bounds; the panic is modelled as `none`. -/
def Interner.get (it : Interner) (i : Nat) : Option String :=
  it.get? i

/-- `StringHandle` from `src/lib.rs`: pairs the identity of the
`Arc<RwLock<Interner>>` that issued it (the `Arc`'s pointer identity,
modelled as a `Nat` tag) with the index of the interned string. -/
structure StringHandle where
  interner : Nat
  index : Nat
deriving DecidableEq, Repr

/-- `impl PartialEq for StringHandle`:
`Arc::ptr_eq(&self.interner, &other.interner) && self.index == other.index`. -/
def StringHandle.eqImpl (a b : StringHandle) : Bool :=
  (a.interner == b.interner) && (a.index == b.index)

/-- `impl Hash for StringHandle` feeds
`self.interner.read().get(self.index)` — the resolved text — into the
hasher, so the hash is a function of this key alone.  `w` is the world of
live interner instances, indexed by `Arc` identity; an invalid handle
panics in Rust, modelled as `none`. -/
def StringHandle.hashKey (w : List Interner) (h : StringHandle) : Option String :=
  (w.get? h.interner).bind (fun it => Interner.get it h.index)

/-- `Interner::intern`: look the string up under the read lock and wrap
the existing index, else insert under the write lock (`add`) and wrap the
new index.  `iid` is the identity of the `Arc` the handle will share. -/
def Interner.intern (iid : Nat) (it : Interner) (s : String) : StringHandle × Interner :=
  match it.tryLookup s with
  | some i => (⟨iid, i⟩, it)
  | none =>
    let p := it.add s
    (⟨iid, p.1⟩, p.2)

/-- `Identifier` from `src/lib.rs`. -/
structure Identifier where
  span : Span
  string : StringHandle
deriving DecidableEq, Repr

-- Rust `f32` values producible by this grammar (no sign, no NaN),
-- represented exactly.

/-- A nonnegative binary32 value: infinity, or the finite value
`m * 2 ^ e` with `m` odd (or `m = 0` and `e = 0`), which makes the
representation canonical: two finite values are equal as reals iff their
representations are equal. -/
inductive F32 where
  | inf : F32
  | val (m : Nat) (e : Int) : F32
deriving DecidableEq, Repr

/-- Fuelled floor of the base-2 logarithm (structural recursion so that
the kernel can evaluate it); correct whenever `fuel ≥ log2 n`. -/
def log2fuel : Nat → Nat → Nat
  | 0, _ => 0
  | f + 1, n => if n ≤ 1 then 0 else log2fuel f (n / 2) + 1

/-- `⌊log2 n⌋` for `n ≥ 1` (using `n` itself as fuel, which always
suffices). -/
def natLog2 (n : Nat) : Nat := log2fuel n n

/-- Round `num / den` to the nearest integer, ties to even. -/
def rne2 (num den : Nat) : Nat :=
  let q := num / den
  let r := num % den
  if 2 * r < den then q
  else if den < 2 * r then q + 1
  else if q % 2 = 0 then q else q + 1

/-- Strip factors of two from `m` into the exponent, producing the
canonical representation of `m * 2 ^ e`. -/
def oddify : Nat → Nat → Int → Nat × Int
  | 0, m, e => (m, e)
  | f + 1, m, e => if m ≠ 0 ∧ m % 2 = 0 then oddify f (m / 2) (e + 1) else (m, e)

/-- Correctly rounded (round-to-nearest, ties-to-even) conversion of the
decimal value `n / 10 ^ k` to binary32, with overflow mapped to
infinity — the semantics Rust's `str::parse::<f32>` guarantees for the
decimal strings this grammar captures. -/
def f32round (n k : Nat) : F32 :=
  if n = 0 then F32.val 0 0
  else if (2 ^ 128 - 2 ^ 103) * 10 ^ k ≤ n then F32.inf
  else
    let e : Int :=
      if n * 2 ^ 126 < 10 ^ k then -149
      else (natLog2 (n * 2 ^ 150 / 10 ^ k) : Int) - 173
    let m :=
      if 0 ≤ e then rne2 n (10 ^ k * 2 ^ e.toNat)
      else rne2 (n * 2 ^ (-e).toNat) (10 ^ k)
    let p := oddify 64 m e
    F32.val p.1 p.2

-- AST types from `src/cvarinfo.rs`.

/-- `FlagKind`: the closed set of CVar qualifiers. -/
inductive FlagKind where
  | Server
  | User
  | NoSave
  | NoArchive
  | Cheat
  | Latch
deriving DecidableEq, Repr

/-- `Flag`: AST node for one CVar qualifier. -/
structure Flag where
  span : Span
  kind : FlagKind
deriving DecidableEq, Repr

/-- `StorageType`: the value type stored in the CVar. -/
inductive StorageType where
  | Bool
  | Int
  | Float
  | String
  | Color
deriving DecidableEq, Repr

/-- `TypeSpec`: AST node for the CVar's type specifier. -/
structure TypeSpec where
  span : Span
  storage_type : StorageType
deriving DecidableEq, Repr

/-- `Value`: the tagged union of literal values.  `Int` holds a Rust
`i32` (only nonnegative values are producible, since the grammar has no
sign); `Float` holds an `f32` modelled exactly by `F32`. -/
inductive Value where
  | Bool (b : Bool)
  | Int (i : Int)
  | Float (f : F32)
  | String (s : String)
  | Color (red green blue : Nat)
deriving DecidableEq, Repr

/-- `Initializer`: AST node for the optional default of a CVar. -/
structure Initializer where
  span : Span
  value : Value
deriving DecidableEq, Repr

/-- `CVar`: the AST node for a single CVar definition. -/
structure CVar where
  span : Span
  flags : List Flag
  type_spec : TypeSpec
  name : Identifier
  init : Option Initializer
deriving DecidableEq, Repr

/-- `CVarInfo`: the top of a CVARINFO abstract syntax tree (a tuple
struct wrapping `Vec<CVar>` in Rust). -/
structure CVarInfo where
  cvars : List CVar
deriving DecidableEq, Repr

-- The grammar engine: the `peg::parser!` block of `src/cvarinfo.rs`,
-- rule by rule.  A parser takes the remaining input and returns the
-- parsed result plus the rest of the input, or `none` on match failure.

/-- Remaining input of a parse in progress. -/
abbrev Chars := List Char

/-- ASCII lowercase folding of a character's code point, as in Rust's
`eq_ignore_ascii_case`. -/
def lowerNat (c : Char) : Nat :=
  if 65 ≤ c.toNat ∧ c.toNat ≤ 90 then c.toNat + 32 else c.toNat

/-- Case-insensitive (ASCII) character comparison. -/
def eqIC (a b : Char) : Bool :=
  lowerNat a == lowerNat b

/-- Case-insensitive (ASCII) comparison of a matched slice with a
keyword, as in `str::eq_ignore_ascii_case`. -/
def icEq : Chars → Chars → Bool
  | [], [] => true
  | a :: as1, b :: bs1 => eqIC a b && icEq as1 bs1
  | _, _ => false

/-- `['0'..='9']`. -/
def isDigitC (c : Char) : Bool :=
  48 ≤ c.toNat && c.toNat ≤ 57

/-- `digit_hex()`: `['a'..='f' | 'A'..='F' | '0'..='9']`. -/
def isHexC (c : Char) : Bool :=
  isDigitC c || (97 ≤ c.toNat && c.toNat ≤ 102) || (65 ≤ c.toNat && c.toNat ≤ 70)

/-- `['a'..='z' | 'A'..='Z']`, the first character of `name()`. -/
def isAlphaC (c : Char) : Bool :=
  (97 ≤ c.toNat && c.toNat ≤ 122) || (65 ≤ c.toNat && c.toNat ≤ 90)

/-- `['a'..='z' | 'A'..='Z' | '0'..='9' | '_']`, the tail characters of
`name()`. -/
def isIdentC (c : Char) : Bool :=
  isAlphaC c || isDigitC c || c.toNat == 95

/-- `rule line_comment()`:
`"//" ([^ '/' | '!'] / "//") (!"\n" [_])* / "//"` — after `//`, either a
character other than `/` or `!`, or a second `//`, then everything up to
(but not including) the next newline; else the bare two-character `//`. -/
def lineComment (cs : Chars) : Option Chars :=
  match cs with
  | c1 :: r1 =>
    if c1 = '/' then
      match r1 with
      | c2 :: r2 =>
        if c2 = '/' then
          match r2 with
          | c3 :: r3 =>
            if c3 ≠ '/' ∧ c3 ≠ '!' then some (takeToNl r3)
            else
              match r2 with
              | c3 :: c4 :: r4 =>
                if c3 = '/' ∧ c4 = '/' then some (takeToNl r4) else some r2
              | _ => some r2
          | [] => some []
        else none
      | [] => none
    else none
  | [] => none
where
  /-- `(!"\n" [_])*`: drop characters up to the next newline. -/
  takeToNl : Chars → Chars
    | [] => []
    | c :: cs1 => if c = '\n' then c :: cs1 else takeToNl cs1

/-- The `(!"*/" [_])* "*/"` tail of a block comment. -/
def blockTail : Chars → Option Chars
  | [] => none
  | c1 :: r1 =>
    match r1 with
    | c2 :: r2 => if c1 = '*' ∧ c2 = '/' then some r2 else blockTail r1
    | [] => none

/-- `rule block_comment()`:
`"/*" (!"*/" [_])* "*/" / "/**/" / "/***/"` (the last two alternatives
are subsumed by the first, which is tried first and also matches them). -/
def blockComment (cs : Chars) : Option Chars :=
  match cs with
  | c1 :: r1 =>
    if c1 = '/' then
      match r1 with
      | c2 :: r2 =>
        if c2 = '*' then
          match blockTail r2 with
          | some r => some r
          | none =>
            match r2 with
            | c3 :: c4 :: r4 =>
              if c3 = '*' ∧ c4 = '/' then some r4
              else
                match r2 with
                | c3 :: c4 :: c5 :: r5 =>
                  if c3 = '*' ∧ c4 = '*' ∧ c5 = '/' then some r5 else none
                | _ => none
            | _ => none
        else none
      | [] => none
    else none
  | [] => none

/-- One iteration of the whitespace rule `_`:
`" " / "\n" / "\r" / "\t" / line_comment() / block_comment()`. -/
def wsItem (cs : Chars) : Option Chars :=
  match cs with
  | [] => none
  | c :: r =>
    if c = ' ' then some r
    else if c = '\n' then some r
    else if c = '\r' then some r
    else if c = '\t' then some r
    else
      match lineComment (c :: r) with
      | some r2 => some r2
      | none => blockComment (c :: r)

/-- Greedy repetition of `wsItem`, fuelled (each successful `wsItem`
consumes at least one character, so `cs.length` fuel always suffices). -/
def wsStarF : Nat → Chars → Chars
  | 0, cs => cs
  | f + 1, cs =>
    match wsItem cs with
    | none => cs
    | some rest => wsStarF f rest

/-- `rule _`: zero or more whitespace characters and comments.  The rule
always succeeds (`*` allows zero matches), so it returns the rest
directly. -/
def wsStar (cs : Chars) : Chars :=
  wsStarF cs.length cs

/-- `rule nocase(literal)`: consume exactly `literal.len()` characters
and require them to equal the literal up to ASCII case; returns the
matched slice.  (The Rust rule takes the characters first and then
compares the slices; walking them in lockstep accepts and rejects the
same inputs.) -/
def nocaseP : Chars → Chars → Option (Chars × Chars)
  | [], cs => some ([], cs)
  | _ :: _, [] => none
  | k :: ks, c :: cs =>
    if eqIC c k then (nocaseP ks cs).map (fun p => (c :: p.1, p.2)) else none

/-- `rule dec_num_str()` body: split the longest leading run of decimal
digits from the input. -/
def spanDigits : Chars → Chars × Chars
  | [] => ([], [])
  | c :: cs =>
    if isDigitC c then
      let p := spanDigits cs
      (c :: p.1, p.2)
    else ([], c :: cs)

/-- `rule dec_num_str() = $(['0'..='9']+)`. -/
def digitsP (cs : Chars) : Option (Chars × Chars) :=
  let p := spanDigits cs
  if p.1.isEmpty then none else some p

/-- Numeric value of a run of decimal digits. -/
def digitsVal (ds : Chars) : Nat :=
  ds.foldl (fun a c => 10 * a + (c.toNat - 48)) 0

/-- Rust's `str::parse::<i32>` on the strings `dec_num_str` can capture:
one or more decimal digits parse to their value when it fits in a 32-bit
signed integer and fail otherwise (no clamping or wraparound). -/
def rustParseI32 (ds : Chars) : Option Int :=
  if ds ≠ [] ∧ ds.all isDigitC then
    let n := digitsVal ds
    if n ≤ 2147483647 then some (Int.ofNat n) else none
  else none

/-- Shape validation done by Rust's `str::parse::<f32>` on the strings
the float rule can capture: `digits`, `digits.`, or `digits.digits`
(split into integral digits and fraction digits). -/
def splitDot (cs : Chars) : Option (Chars × Chars) :=
  let p := spanDigits cs
  match p.2 with
  | [] => if p.1.isEmpty then none else some (p.1, [])
  | c :: r =>
    if c = '.' then
      let q := spanDigits r
      match q.2 with
      | [] =>
        if p.1.isEmpty ∧ q.1.isEmpty then none else some (p.1, q.1)
      | _ => none
    else none

/-- Rust's `str::parse::<f32>` on the decimal strings this grammar can
capture: syntactically valid decimal numerals always parse, to the
correctly rounded binary32 value (overflow gives infinity, never an
error). -/
def rustParseF32 (cs : Chars) : Option F32 :=
  match splitDot cs with
  | some (ip, fp) => some (f32round (digitsVal (ip ++ fp)) fp.length)
  | none => none

/-- `rule lit_int()`: `dec_num_str` followed by the `{? ... }` action
that fails the alternative unless the text parses as an `i32`. -/
def litIntP (cs : Chars) : Option (Value × Chars) :=
  match digitsP cs with
  | some (ds, rest) =>
    match rustParseI32 ds with
    | some i => some (Value.Int i, rest)
    | none => none
  | none => none

/-- The `$((dec_num_str() "." dec_num_str()) / (dec_num_str() ".") /
dec_num_str())` capture of `lit_float`: ordered choice, greedy digit
runs. -/
def floatShape (cs : Chars) : Option (Chars × Chars) :=
  match digitsP cs with
  | none => none
  | some (d1, r1) =>
    match r1 with
    | c :: r2 =>
      if c = '.' then
        match digitsP r2 with
        | some (d2, r3) => some (d1 ++ '.' :: d2, r3)
        | none => some (d1 ++ ['.'], r2)
      else some (d1, r1)
    | [] => some (d1, r1)

/-- `rule lit_float()`: the captured text is handed to
`str::parse::<f32>`; failure of the parse (impossible for these shapes)
would fail the alternative. -/
def litFloatP (cs : Chars) : Option (Value × Chars) :=
  match floatShape cs with
  | some (cap, rest) =>
    match rustParseF32 cap with
    | some f => some (Value.Float f, rest)
    | none => none
  | none => none

/-- `rule lit_bool()`: case-insensitive `true` / `false`; the action
re-examines the matched slice to choose the value. -/
def litBoolP (cs : Chars) : Option (Value × Chars) :=
  match
    (match nocaseP "true".toList cs with
     | some p => some p
     | none => nocaseP "false".toList cs)
  with
  | some (m, rest) =>
    if icEq m "true".toList then some (Value.Bool true, rest)
    else if icEq m "false".toList then some (Value.Bool false, rest)
    else none
  | none => none

/-- `digit_hex()*<2>`: exactly two hexadecimal digits. -/
def hexPairP (cs : Chars) : Option (Chars × Chars) :=
  match cs with
  | a :: r1 =>
    if isHexC a then
      match r1 with
      | b :: r2 => if isHexC b then some ([a, b], r2) else none
      | [] => none
    else none
  | [] => none

/-- Value of one hexadecimal digit. -/
def hexDigitVal (c : Char) : Nat :=
  if isDigitC c then c.toNat - 48
  else if 97 ≤ c.toNat ∧ c.toNat ≤ 102 then c.toNat - 87
  else c.toNat - 55

/-- Rust's `u8::from_str_radix(s, 16)` on a two-hex-digit slice (always
in range, hence always succeeds). -/
def hexPairVal (ds : Chars) : Option Nat :=
  if ds.all isHexC ∧ ds ≠ [] then some (ds.foldl (fun a c => 16 * a + hexDigitVal c) 0)
  else none

/-- `rule lit_color()`: a double quote, three two-hex-digit groups with
optional whitespace/comments (`_?`) between them, and a closing double
quote. -/
def litColorP (cs : Chars) : Option (Value × Chars) :=
  match cs with
  | c0 :: r0 =>
    if c0 = '"' then
      match hexPairP r0 with
      | some (rc, r1) =>
        match hexPairP (wsStar r1) with
        | some (gc, r2) =>
          match hexPairP (wsStar r2) with
          | some (bc, r3) =>
            match r3 with
            | c4 :: r4 =>
              if c4 = '"' then
                match hexPairVal rc, hexPairVal gc, hexPairVal bc with
                | some rv, some gv, some bv => some (Value.Color rv gv bv, r4)
                | _, _, _ => none
              else none
            | [] => none
          | none => none
        | none => none
      | none => none
    else none
  | [] => none

/-- The negative lookahead `!("\r" [^ '\n'])` at the start of a string
literal body: fails only when the body starts with a carriage return
followed by a character other than a newline. -/
def strLookOk : Chars → Bool
  | c1 :: c2 :: _ => if c1 = '\r' then decide (c2 = '\n') else true
  | _ => true

/-- The `[^ '"' | '\\']+` greedy run of a string literal body. -/
def spanNotQB : Chars → Chars × Chars
  | [] => ([], [])
  | c :: cs =>
    if c ≠ '"' ∧ c ≠ '\\' then
      let p := spanNotQB cs
      (c :: p.1, p.2)
    else ([], c :: cs)

/-- `rule lit_string()`:
`"\"" inner:$(!("\r" [^ '\n']) [^ '\"' | '\\']+) "\""` — a double-quoted
run of one or more characters containing neither `"` nor `\`. -/
def litStringP (cs : Chars) : Option (Value × Chars) :=
  match cs with
  | c0 :: r0 =>
    if c0 = '"' then
      if strLookOk r0 then
        let p := spanNotQB r0
        if p.1.isEmpty then none
        else
          match p.2 with
          | c1 :: r1 =>
            if c1 = '"' then some (Value.String (String.mk p.1), r1) else none
          | [] => none
      else none
    else none
  | [] => none

/-- The ordered literal choice of `rule init()`:
`lit_bool() / lit_float() / lit_int() / lit_color() / lit_string()`. -/
def litAlt (cs : Chars) : Option (Value × Chars) :=
  match litBoolP cs with
  | some p => some p
  | none =>
    match litFloatP cs with
    | some p => some p
    | none =>
      match litIntP cs with
      | some p => some p
      | none =>
        match litColorP cs with
        | some p => some p
        | none => litStringP cs

/-- `rule init()`: `=`, whitespace, then the literal, with the span
taken from before `=` to after the literal.  `n` is the total input
length, so `n - cs.length` is the current position. -/
def initP (n : Nat) (cs : Chars) : Option (Initializer × Chars) :=
  match cs with
  | c0 :: r0 =>
    if c0 = '=' then
      match litAlt (wsStar r0) with
      | some (v, r1) => some ({ span := ⟨n - cs.length, n - r1.length⟩, value := v }, r1)
      | none => none
    else none
  | [] => none

/-- The `if`/`else if` chain of `rule flag()`'s action, mapping the
matched slice to its `FlagKind` (the final branch is `unreachable!()` in
Rust; it is modelled as failure). -/
def flagKindOf (m : Chars) : Option FlagKind :=
  if icEq m "server".toList then some FlagKind.Server
  else if icEq m "user".toList then some FlagKind.User
  else if icEq m "nosave".toList then some FlagKind.NoSave
  else if icEq m "noarchive".toList then some FlagKind.NoArchive
  else if icEq m "cheat".toList then some FlagKind.Cheat
  else if icEq m "latch".toList then some FlagKind.Latch
  else none

/-- `rule flag()`: the six keywords in order
`server / user / nosave / noarchive / cheat / latch`, case-insensitive,
with the span of the matched slice. -/
def flagP (n : Nat) (cs : Chars) : Option (Flag × Chars) :=
  match
    (match nocaseP "server".toList cs with
     | some p => some p
     | none =>
       match nocaseP "user".toList cs with
       | some p => some p
       | none =>
         match nocaseP "nosave".toList cs with
         | some p => some p
         | none =>
           match nocaseP "noarchive".toList cs with
           | some p => some p
           | none =>
             match nocaseP "cheat".toList cs with
             | some p => some p
             | none => nocaseP "latch".toList cs)
  with
  | some (m, rest) =>
    match flagKindOf m with
    | some k => some ({ span := ⟨n - cs.length, n - rest.length⟩, kind := k }, rest)
    | none => none
  | none => none

/-- The `if`/`else if` chain of `rule type_spec()`'s action. -/
def storageOf (m : Chars) : Option StorageType :=
  if icEq m "int".toList then some StorageType.Int
  else if icEq m "float".toList then some StorageType.Float
  else if icEq m "color".toList then some StorageType.Color
  else if icEq m "bool".toList then some StorageType.Bool
  else if icEq m "string".toList then some StorageType.String
  else none

/-- `rule type_spec()`: the five keywords in order
`int / float / color / bool / string`, case-insensitive. -/
def typeSpecP (n : Nat) (cs : Chars) : Option (TypeSpec × Chars) :=
  match
    (match nocaseP "int".toList cs with
     | some p => some p
     | none =>
       match nocaseP "float".toList cs with
       | some p => some p
       | none =>
         match nocaseP "color".toList cs with
         | some p => some p
         | none =>
           match nocaseP "bool".toList cs with
           | some p => some p
           | none => nocaseP "string".toList cs)
  with
  | some (m, rest) =>
    match storageOf m with
    | some st => some ({ span := ⟨n - cs.length, n - rest.length⟩, storage_type := st }, rest)
    | none => none
  | none => none

/-- The `['a'..='z' | 'A'..='Z' | '0'..='9' | '_']*` tail of `name()`. -/
def spanIdent : Chars → Chars × Chars
  | [] => ([], [])
  | c :: cs =>
    if isIdentC c then
      let p := spanIdent cs
      (c :: p.1, p.2)
    else ([], c :: cs)

/-- `rule name()`: an ASCII letter followed by letters, digits and
underscores; the matched slice is interned via the shared interner
(`Interner::intern(interner, string)`), so the rule threads the interner
state.  `iid` is the identity of the interner's `Arc`. -/
def nameP (n iid : Nat) (it : Interner) (cs : Chars) : Option (Identifier × Interner × Chars) :=
  match cs with
  | c :: r =>
    if isAlphaC c then
      let p := spanIdent r
      let q := Interner.intern iid it (String.mk (c :: p.1))
      some ({ span := ⟨n - cs.length, n - p.2.length⟩, string := q.1 }, q.2, p.2)
    else none
  | [] => none

/-- The loop of `flag() ** _` once a first flag has matched: repeatedly
try the separator `_` followed by another flag, backtracking the
separator (not the interner-free flag) when the next flag fails.  Each
successful iteration consumes at least one character, so the caller's
fuel always suffices. -/
def flagsSepGo (n : Nat) (fuel : Nat) (f : Flag) (cs : Chars) : List Flag × Chars :=
  match flagP n (wsStar cs) with
  | none => ([f], cs)
  | some (f2, rest) =>
    match fuel with
    | 0 => ([f, f2], rest)
    | fl + 1 =>
      let r := flagsSepGo n fl f2 rest
      (f :: r.1, r.2)

/-- `flags:(flag() ** _)`: zero or more flags separated by
whitespace/comments. -/
def flagsSep (n : Nat) (cs : Chars) : List Flag × Chars :=
  match flagP n cs with
  | none => ([], cs)
  | some (f, rest) => flagsSepGo n (cs.length + 1) f rest

/-- The tail of `rule definition()` after the name has matched: `_`,
the optional initializer `init()?` (backtracked on failure), `_`, and
the terminating `;`, assembling the `CVar` node. -/
def defTail (n start : Nat) (flags : List Flag) (ts : TypeSpec) (ident : Identifier)
    (it2 : Interner) (r5 : Chars) : Option (CVar × Interner × Chars) :=
  let r6 := wsStar r5
  let ip : Option Initializer × Chars :=
    match initP n r6 with
    | some (ini, r) => (some ini, r)
    | none => (none, r6)
  match wsStar ip.2 with
  | c :: r9 =>
    if c = ';' then
      some ({ span := ⟨start, n - r9.length⟩
              flags := flags
              type_spec := ts
              name := ident
              init := ip.1 }, it2, r9)
    else none
  | [] => none

/-- `rule definition()`: flags, type specifier, name, optional
initializer and terminating `;`, each pair separated by `_`, with the
span covering the whole definition.  (Interner writes made by an attempt
that later fails are dropped here; no successful parse, which is what
the theorems below observe, can discard an interned name, because a
failing trailing attempt never reaches `name()`.) -/
def definitionP (n iid : Nat) (it : Interner) (cs : Chars) : Option (CVar × Interner × Chars) :=
  let fp := flagsSep n cs
  let r2 := wsStar fp.2
  match typeSpecP n r2 with
  | none => none
  | some (ts, r3) =>
    match nameP n iid it (wsStar r3) with
    | none => none
    | some (ident, it2, r5) => defTail n (n - cs.length) fp.1 ts ident it2 r5

/-- The loop of `definition() ** _` once a first definition has matched
(same backtracking discipline as `flagsSepGo`). -/
def defsSepGo (n iid : Nat) (fuel : Nat) (cv : CVar) (it : Interner) (cs : Chars) :
    List CVar × Interner × Chars :=
  match definitionP n iid it (wsStar cs) with
  | none => ([cv], it, cs)
  | some (cv2, it2, rest) =>
    match fuel with
    | 0 => ([cv, cv2], it2, rest)
    | fl + 1 =>
      let r := defsSepGo n iid fl cv2 it2 rest
      (cv :: r.1, r.2)

/-- `definitions:(definition() ** _)`. -/
def defsSep (n iid : Nat) (it : Interner) (cs : Chars) : List CVar × Interner × Chars :=
  match definitionP n iid it cs with
  | none => ([], it, cs)
  | some (cv, it2, rest) => defsSepGo n iid (cs.length + 1) cv it2 rest

/-- `rule lump()`: optional leading whitespace, the definitions, optional
trailing whitespace, then `![_]` — the parse succeeds only at end of
input. -/
def lumpP (n iid : Nat) (it : Interner) (cs : Chars) : Option (CVarInfo × Interner × Chars) :=
  let d := defsSep n iid it (wsStar cs)
  match wsStar d.2.2 with
  | [] => some (⟨d.1⟩, d.2.1, [])
  | _ :: _ => none

/-- `CVarInfo::parse`: run `lump` on the whole input with the shared
interner (`it` paired with its `Arc` identity `iid`).  `Err` is modelled
as `none`. -/
def CVarInfo.parse (input : String) (it : Interner) (iid : Nat) : Option (CVarInfo × Interner) :=
  (lumpP input.toList.length iid it input.toList).map (fun r => (r.1, r.2.1))

-- Comparison of parse results up to interner identity, used to state
-- round-trip determinism: resolved identifier text is compared instead
-- of raw handles.

/-- Two identifiers agree when their spans agree and their handles
resolve to the same text in their respective interners. -/
def IdentEquiv (it1 it2 : Interner) (a b : Identifier) : Prop :=
  a.span = b.span ∧ Interner.get it1 a.string.index = Interner.get it2 b.string.index

/-- Two CVars agree when spans, flag lists, type tags and initializer
values agree exactly and the names agree up to interner identity. -/
def CVarEquiv (it1 it2 : Interner) (a b : CVar) : Prop :=
  a.span = b.span ∧ a.flags = b.flags ∧ a.type_spec = b.type_spec ∧
    IdentEquiv it1 it2 a.name b.name ∧ a.init = b.init

/-- Pointwise `CVarEquiv` on declaration lists. -/
def CVarsEquiv (it1 it2 : Interner) : List CVar → List CVar → Prop
  | [], [] => True
  | a :: l1, b :: l2 => CVarEquiv it1 it2 a b ∧ CVarsEquiv it1 it2 l1 l2
  | _, _ => False

/-- Equivalence of two parse outcomes: both fail, or both succeed with
ASTs equal up to interner identity. -/
def ParseEquiv : Option (CVarInfo × Interner) → Option (CVarInfo × Interner) → Prop
  | none, none => True
  | some (v1, it1), some (v2, it2) => CVarsEquiv it1 it2 v1.cvars v2.cvars
  | _, _ => False

/-- Retag an identifier's handle with another interner identity. -/
def renameId (iid : Nat) (idf : Identifier) : Identifier :=
  { idf with string := ⟨iid, idf.string.index⟩ }

/-- Retag a CVar's name handle with another interner identity. -/
def renameCV (iid : Nat) (cv : CVar) : CVar :=
  { cv with name := renameId iid cv.name }

/-- The source keyword of each `StorageType`, as matched (up to ASCII
case) by `rule type_spec()`. -/
def typeKeyword : StorageType → String
  | StorageType.Bool => "bool"
  | StorageType.Int => "int"
  | StorageType.Float => "float"
  | StorageType.String => "string"
  | StorageType.Color => "color"

-- Interner lemmas.

theorem tryLookup_get (it : Interner) (s : String) :
    ∀ i, it.tryLookup s = some i → it[i]? = some s := by
  induction it with
  | nil => intro i h; simp [Interner.tryLookup] at h
  | cons a rest ih =>
    intro i h
    by_cases hs : a = s
    · simp [Interner.tryLookup, hs] at h
      subst h
      simp [hs]
    · simp [Interner.tryLookup, hs] at h
      obtain ⟨j, hj, hji⟩ := h
      subst hji
      simp
      exact ih j hj

theorem tryLookup_none_append (it : Interner) (s : String) :
    it.tryLookup s = none → (it ++ [s]).tryLookup s = some it.length := by
  induction it with
  | nil => intro _; simp [Interner.tryLookup]
  | cons a rest ih =>
    intro h
    by_cases hs : a = s
    · simp [Interner.tryLookup, hs] at h
    · simp [Interner.tryLookup, hs] at h ⊢
      exact ih h

theorem get_append_self (it : Interner) (s : String) :
    (it ++ [s])[it.length]? = some s := by
  induction it with
  | nil => rfl
  | cons a rest ih => simp

/-- C4: interning is idempotent: interning the same string twice from
the same interner instance returns the very same handle (hence handles
that compare equal under `StringHandle`'s `PartialEq`), the second call
neither creates a new index nor grows the table, and the handle resolves
via `get` to the interned text. -/
theorem c4_intern_idempotent (iid : Nat) (it : Interner) (s : String) :
    (Interner.intern iid (Interner.intern iid it s).2 s).1 = (Interner.intern iid it s).1 ∧
    StringHandle.eqImpl (Interner.intern iid (Interner.intern iid it s).2 s).1
      (Interner.intern iid it s).1 = true ∧
    (Interner.intern iid (Interner.intern iid it s).2 s).2 = (Interner.intern iid it s).2 ∧
    Interner.get (Interner.intern iid it s).2 (Interner.intern iid it s).1.index = some s := by
  cases h : it.tryLookup s with
  | some i =>
    refine ⟨?_, ?_, ?_, ?_⟩ <;>
      simp [Interner.intern, h, StringHandle.eqImpl, Interner.get, tryLookup_get it s i h]
  | none =>
    have h2 : (it ++ [s]).tryLookup s = some it.length := tryLookup_none_append it s h
    refine ⟨?_, ?_, ?_, ?_⟩ <;>
      simp [Interner.intern, Interner.add, h, h2, StringHandle.eqImpl, Interner.get,
        get_append_self]

/-- C5: `StringHandle` equality holds exactly when both handles refer to
the same interner instance and carry the same index, while the hash is
fed from the resolved text alone; hence equal handles have equal hash
keys, and two handles into different interners holding equal text have
equal hash keys yet compare unequal. -/
theorem c5_handle_eq_hash :
    (∀ a b : StringHandle,
      StringHandle.eqImpl a b = true ↔ a.interner = b.interner ∧ a.index = b.index) ∧
    (∀ (w : List Interner) (a b : StringHandle),
      StringHandle.eqImpl a b = true → StringHandle.hashKey w a = StringHandle.hashKey w b) ∧
    (StringHandle.eqImpl ⟨0, 0⟩ ⟨1, 0⟩ = false ∧
      StringHandle.hashKey [["t"], ["t"]] ⟨0, 0⟩ = StringHandle.hashKey [["t"], ["t"]] ⟨1, 0⟩ ∧
      StringHandle.hashKey [["t"], ["t"]] ⟨0, 0⟩ = some "t") := by
  refine ⟨?_, ?_, by decide, by decide, by decide⟩
  · intro a b
    simp [StringHandle.eqImpl]
  · intro w a b h
    obtain ⟨h1, h2⟩ := by simpa [StringHandle.eqImpl] using h
    simp [StringHandle.hashKey, h1, h2]

/-- C5 witness: equal handles (same instance, same index) have equal
hash keys, at a concrete world. -/
theorem c5_handle_eq_hash_witness :
    StringHandle.hashKey [["t"]] ⟨0, 0⟩ = StringHandle.hashKey [["t"]] ⟨0, 0⟩ :=
  c5_handle_eq_hash.2.1 [["t"]] ⟨0, 0⟩ ⟨0, 0⟩ (by decide)

/-- C8: `Span::combine` takes the componentwise maxima of the two spans'
endpoints, not the min-start/max-end set union; on the disjoint,
unordered pair (5,9)/(0,2) it returns (5,9) rather than the union
(0,9). -/
theorem c8_combine_componentwise_max :
    (∀ a b : Span, Span.combine a b = ⟨a.start.max b.start, a.stop.max b.stop⟩) ∧
    Span.combine ⟨5, 9⟩ ⟨0, 2⟩ = ⟨5, 9⟩ ∧
    Span.combine ⟨0, 2⟩ ⟨5, 9⟩ = ⟨5, 9⟩ :=
  ⟨fun _ _ => rfl, rfl, rfl⟩

/-- C1 (claim refuted by the code): the spec requires a bare decimal
digit sequence such as `42` to be classified `Int`, but the parser
classifies it `Float`: `lit_float` is tried before `lit_int`, its third
alternative matches a bare digit run, and Rust's `f32` parsing never
fails on such text, so `server int delusive_bunker = 42;` yields the
initializer value `Float(42.0)` — `lit_int` is unreachable. -/
theorem c1_bare_int_parsed_as_float :
    CVarInfo.parse "server int delusive_bunker = 42;" [] 0 =
      some (⟨[{ span := ⟨0, 32⟩
                flags := [{ span := ⟨0, 6⟩, kind := FlagKind.Server }]
                type_spec := { span := ⟨7, 10⟩, storage_type := StorageType.Int }
                name := { span := ⟨11, 26⟩, string := ⟨0, 0⟩ }
                init := some { span := ⟨27, 31⟩,
                               value := Value.Float (F32.val 21 1) } }]⟩,
        ["delusive_bunker"]) := by
  decide

/-- C2 (claim refuted by the code): `2147483649` does not fit an `i32`
(Rust's `i32` parse rejects it), yet the declaration parses successfully
instead of failing: the float alternative captures the digits first and
silently rounds them to the `f32` `2147483648.0` (= `2^31`, here
`F32.val 1 31`). -/
theorem c2_out_of_range_int_accepted :
    rustParseI32 "2147483649".toList = none ∧
    CVarInfo.parse "server int x = 2147483649;" [] 0 =
      some (⟨[{ span := ⟨0, 26⟩
                flags := [{ span := ⟨0, 6⟩, kind := FlagKind.Server }]
                type_spec := { span := ⟨7, 10⟩, storage_type := StorageType.Int }
                name := { span := ⟨11, 12⟩, string := ⟨0, 0⟩ }
                init := some { span := ⟨13, 25⟩,
                               value := Value.Float (F32.val 1 31) } }]⟩,
        ["x"]) := by
  constructor
  · decide
  · decide

/-- C7: flags are an ordered list with duplicates preserved verbatim:
`server user nosave cheat noarchive latch server bool X;` yields exactly
one CVar whose flag list has length 7 with `Server` first and last. -/
theorem c7_flag_order_and_duplicates :
    (CVarInfo.parse "server user nosave cheat noarchive latch server bool X;" [] 0).map
        (fun p => p.1.cvars.map (fun c => c.flags.map (fun f => f.kind))) =
      some [[FlagKind.Server, FlagKind.User, FlagKind.NoSave, FlagKind.Cheat,
             FlagKind.NoArchive, FlagKind.Latch, FlagKind.Server]] ∧
    (CVarInfo.parse "server user nosave cheat noarchive latch server bool X;" [] 0).map
        (fun p => p.1.cvars.map (fun c => c.flags.length)) = some [7] ∧
    (CVarInfo.parse "server user nosave cheat noarchive latch server bool X;" [] 0).map
        (fun p => p.1.cvars.map (fun c =>
          (c.flags.head?.map (fun f => f.kind), c.flags.getLast?.map (fun f => f.kind)))) =
      some [(some FlagKind.Server, some FlagKind.Server)] := by
  refine ⟨by decide, by decide, by decide⟩

/-- C3: parsing is all-or-nothing.  A successful `lump` always consumes
the whole input (the `![_]` end-of-input test), so a well-formed prefix
followed by malformed content yields only a failure, never a partial
`CVarInfo`: `server int x; int y` fails outright although its prefix
`server int x;` alone parses to one declaration. -/
theorem c3_all_or_nothing :
    (∀ (n iid : Nat) (it : Interner) (cs : Chars) (v : CVarInfo) (it2 : Interner) (rem : Chars),
      lumpP n iid it cs = some (v, it2, rem) → rem = []) ∧
    CVarInfo.parse "server int x; int y" [] 0 = none ∧
    (CVarInfo.parse "server int x;" [] 0).map (fun p => p.1.cvars.length) = some 1 := by
  refine ⟨?_, by decide, by decide⟩
  intro n iid it cs v it2 rem h
  unfold lumpP at h
  simp only [] at h
  split at h
  · cases h
    rfl
  · cases h

/-- C3 witness: instantiating the consumption property at the concrete
input `int x;`, whose `lump` run succeeds with empty rest. -/
theorem c3_all_or_nothing_witness : ([] : Chars) = [] :=
  c3_all_or_nothing.1 6 0 [] "int x;".toList
    ⟨[{ span := ⟨0, 6⟩
        flags := []
        type_spec := { span := ⟨0, 3⟩, storage_type := StorageType.Int }
        name := { span := ⟨4, 5⟩, string := ⟨0, 0⟩ }
        init := none }]⟩
    ["x"] [] (by decide)

theorem litBoolP_shape (cs : Chars) (v : Value) (r : Chars) :
    litBoolP cs = some (v, r) → ∃ b, v = Value.Bool b := by
  intro h
  unfold litBoolP at h
  split at h
  · split at h
    · exact ⟨true, by cases h; rfl⟩
    · split at h
      · exact ⟨false, by cases h; rfl⟩
      · cases h
  · cases h

theorem litFloatP_shape (cs : Chars) (v : Value) (r : Chars) :
    litFloatP cs = some (v, r) → ∃ f, v = Value.Float f := by
  intro h
  unfold litFloatP at h
  split at h
  · split at h
    · exact ⟨_, by cases h; rfl⟩
    · cases h
  · cases h

theorem litIntP_shape (cs : Chars) (v : Value) (r : Chars) :
    litIntP cs = some (v, r) → ∃ i, v = Value.Int i := by
  intro h
  unfold litIntP at h
  split at h
  · split at h
    · exact ⟨_, by cases h; rfl⟩
    · cases h
  · cases h

theorem litColorP_shape (cs : Chars) (v : Value) (r : Chars) :
    litColorP cs = some (v, r) → ∃ a b c, v = Value.Color a b c := by
  intro h
  unfold litColorP at h
  split at h
  · split at h <;> try cases h
    case isTrue =>
      split at h <;> try cases h
      case h_1 =>
        split at h <;> try cases h
        case h_1 =>
          split at h <;> try cases h
          case h_1 =>
            split at h <;> try cases h
            case h_1 =>
              split at h <;> try cases h
              case isTrue =>
                split at h <;> cases h
                case h_1 => exact ⟨_, _, _, rfl⟩
  · cases h

theorem litStringP_shape (cs : Chars) (v : Value) (r : Chars) :
    litStringP cs = some (v, r) → ∃ s, v = Value.String s ∧ s ≠ "" := by
  intro h
  unfold litStringP at h
  split at h
  · split at h <;> try cases h
    case isTrue =>
      split at h <;> try cases h
      case isTrue =>
        simp only [] at h
        split at h <;> try cases h
        case isFalse hne =>
          split at h <;> try cases h
          case h_1 =>
            split at h <;> cases h
            case isTrue =>
              refine ⟨_, rfl, ?_⟩
              intro hs
              apply hne
              have hdata := congrArg String.data hs
              simp at hdata
              simp [hdata]
  · cases h

/-- C10: the empty quoted string is not a valid initializer.  Any
`String` value the literal alternatives produce is nonempty (the string
body is a one-or-more repetition), no literal alternative matches input
beginning `""` (the color rule needs six hex digits), and
`string X = "";` fails to parse. -/
theorem c10_empty_string_rejected :
    (∀ (cs : Chars) (s : String) (r : Chars),
      litAlt cs = some (Value.String s, r) → s ≠ "") ∧
    (∀ rest : Chars, litAlt ('"' :: '"' :: rest) = none) ∧
    CVarInfo.parse "string X = \"\";" [] 0 = none := by
  refine ⟨?_, ?_, by decide⟩
  · intro cs s r h
    unfold litAlt at h
    split at h
    case h_1 p heq =>
      obtain ⟨b, hb⟩ := litBoolP_shape cs p.1 p.2 (by rw [heq])
      cases h
      simp_all
    case h_2 =>
      split at h
      case h_1 p heq =>
        obtain ⟨f, hf⟩ := litFloatP_shape cs p.1 p.2 (by rw [heq])
        cases h
        simp_all
      case h_2 =>
        split at h
        case h_1 p heq =>
          obtain ⟨i, hi⟩ := litIntP_shape cs p.1 p.2 (by rw [heq])
          cases h
          simp_all
        case h_2 =>
          split at h
          case h_1 p heq =>
            obtain ⟨a, b, c, habc⟩ := litColorP_shape cs p.1 p.2 (by rw [heq])
            cases h
            simp_all
          case h_2 =>
            obtain ⟨s2, hs2, hne⟩ := litStringP_shape cs _ _ h
            cases hs2
            exact hne
  · intro rest
    have hb : litBoolP ('"' :: '"' :: rest) = none := by
      simp [litBoolP, nocaseP, eqIC, lowerNat]
    have hf : litFloatP ('"' :: '"' :: rest) = none := by
      simp [litFloatP, floatShape, digitsP, spanDigits, isDigitC]
    have hi : litIntP ('"' :: '"' :: rest) = none := by
      simp [litIntP, digitsP, spanDigits, isDigitC]
    have hc : litColorP ('"' :: '"' :: rest) = none := by
      simp [litColorP, hexPairP, isHexC, isDigitC]
    have hs : litStringP ('"' :: '"' :: rest) = none := by
      simp [litStringP, strLookOk, spanNotQB]
    simp [litAlt, hb, hf, hi, hc, hs]

/-- C10 witness: a concretely parsed string literal, `"a"`, produces a
nonempty string value. -/
theorem c10_empty_string_rejected_witness : ("a" : String) ≠ "" :=
  c10_empty_string_rejected.1 "\"a\"".toList "a" [] (by decide)

-- The interner's `Arc` identity threads through the parse only as an
-- inert tag inside the handles the parse creates; the following lemmas
-- make that explicit by relating a parse under identity `iid` to the
-- same parse under identity 0.

theorem intern_iid (iid : Nat) (it : Interner) (s : String) :
    Interner.intern iid it s =
      (⟨iid, (Interner.intern 0 it s).1.index⟩, (Interner.intern 0 it s).2) := by
  cases h : it.tryLookup s <;> simp [Interner.intern, h]

theorem nameP_iid (n iid : Nat) (it : Interner) (cs : Chars) :
    nameP n iid it cs = (nameP n 0 it cs).map (fun x => (renameId iid x.1, x.2)) := by
  cases cs with
  | nil => rfl
  | cons c r =>
    by_cases ha : isAlphaC c
    · cases h : Interner.tryLookup it (String.mk (c :: (spanIdent r).1)) <;>
        simp [nameP, ha, Interner.intern, Interner.add, h, renameId]
    · simp [nameP, ha]

theorem defTail_rename (n start iid : Nat) (flags : List Flag) (ts : TypeSpec)
    (ident : Identifier) (it2 : Interner) (r5 : Chars) :
    defTail n start flags ts (renameId iid ident) it2 r5 =
      (defTail n start flags ts ident it2 r5).map (fun x => (renameCV iid x.1, x.2)) := by
  unfold defTail
  simp only []
  split
  · split <;> simp [renameCV]
  · simp

theorem definitionP_iid (n iid : Nat) (it : Interner) (cs : Chars) :
    definitionP n iid it cs =
      (definitionP n 0 it cs).map (fun x => (renameCV iid x.1, x.2)) := by
  unfold definitionP
  simp only []
  split
  · simp
  · rw [nameP_iid]
    cases hn : nameP n 0 it (wsStar _) with
    | none => simp
    | some x => simpa using defTail_rename n (n - cs.length) iid _ _ x.1 x.2.1 x.2.2

theorem defsSepGo_iid (n iid : Nat) :
    ∀ (fuel : Nat) (cv : CVar) (it : Interner) (cs : Chars),
      defsSepGo n iid fuel (renameCV iid cv) it cs =
        (fun r => (r.1.map (renameCV iid), r.2)) (defsSepGo n 0 fuel cv it cs) := by
  intro fuel
  induction fuel with
  | zero =>
    intro cv it cs
    unfold defsSepGo
    rw [definitionP_iid]
    cases hd : definitionP n 0 it (wsStar cs) <;> simp
  | succ fl ih =>
    intro cv it cs
    unfold defsSepGo
    rw [definitionP_iid]
    cases hd : definitionP n 0 it (wsStar cs) with
    | none => simp
    | some x =>
      simp only [Option.map_some]
      simp [ih x.1 x.2.1 x.2.2]

theorem defsSep_iid (n iid : Nat) (it : Interner) (cs : Chars) :
    defsSep n iid it cs = (fun r => (r.1.map (renameCV iid), r.2)) (defsSep n 0 it cs) := by
  unfold defsSep
  rw [definitionP_iid]
  cases hd : definitionP n 0 it cs with
  | none => simp
  | some x =>
    simp only [Option.map_some]
    simp [defsSepGo_iid n iid (cs.length + 1) x.1 x.2.1 x.2.2]

theorem lumpP_iid (n iid : Nat) (it : Interner) (cs : Chars) :
    lumpP n iid it cs =
      (lumpP n 0 it cs).map (fun x => (⟨x.1.cvars.map (renameCV iid)⟩, x.2)) := by
  unfold lumpP
  rw [defsSep_iid]
  simp only []
  split <;> simp

theorem parse_iid (input : String) (it : Interner) (iid : Nat) :
    CVarInfo.parse input it iid =
      (CVarInfo.parse input it 0).map (fun x => (⟨x.1.cvars.map (renameCV iid)⟩, x.2)) := by
  unfold CVarInfo.parse
  rw [lumpP_iid]
  cases lumpP input.toList.length 0 it input.toList <;> rfl

theorem cvarsEquiv_rename (it : Interner) (r1 r2 : Nat) :
    ∀ l : List CVar, CVarsEquiv it it (l.map (renameCV r1)) (l.map (renameCV r2)) := by
  intro l
  induction l with
  | nil => trivial
  | cons a l ih =>
    refine ⟨⟨rfl, rfl, rfl, ⟨rfl, rfl⟩, rfl⟩, ih⟩

/-- C6: parsing is deterministic in the input text.  Running the parser
twice on the same input, each time with a fresh (empty) interner of
arbitrary distinct identity, yields outcomes that agree: both fail, or
both succeed with ASTs equal under the comparison that ignores interner
identity but compares spans, flag lists, type tags, initializer values
and resolved identifier text exactly. -/
theorem c6_parse_deterministic (input : String) (r1 r2 : Nat) :
    ParseEquiv (CVarInfo.parse input [] r1) (CVarInfo.parse input [] r2) := by
  rw [parse_iid input [] r1, parse_iid input [] r2]
  cases hbase : CVarInfo.parse input [] 0 with
  | none => trivial
  | some x => exact cvarsEquiv_rename x.2 r1 r2 x.1.cvars

-- Whitespace-skipping lemmas used to trace the parser over inputs with
-- an abstract literal region.

theorem wsStarF_of_none (f : Nat) (cs : Chars) (h : wsItem cs = none) :
    wsStarF f cs = cs := by
  cases f <;> simp [wsStarF, h]

theorem wsStar_of_none (cs : Chars) (h : wsItem cs = none) : wsStar cs = cs := by
  simp [wsStar, wsStarF_of_none _ _ h]

theorem wsItem_space (cs : Chars) : wsItem (' ' :: cs) = some cs := by
  simp [wsItem]

theorem wsStar_space_cons (cs : Chars) (h : wsItem cs = none) :
    wsStar (' ' :: cs) = cs := by
  show wsStarF (' ' :: cs).length (' ' :: cs) = cs
  rw [List.length_cons, wsStarF, wsItem_space]
  simp only []
  exact wsStarF_of_none _ _ h

theorem wsItem_head (c : Char) (r : Chars) (x : Chars) (h : wsItem (c :: r) = some x) :
    c = ' ' ∨ c = '\n' ∨ c = '\r' ∨ c = '\t' ∨ c = '/' := by
  by_cases h1 : c = ' '
  · tauto
  by_cases h2 : c = '\n'
  · tauto
  by_cases h3 : c = '\r'
  · tauto
  by_cases h4 : c = '\t'
  · tauto
  by_cases h5 : c = '/'
  · tauto
  exfalso
  simp [wsItem, h1, h2, h3, h4, h5, lineComment, blockComment] at h

theorem litAlt_ws_head_none (c : Char) (r : Chars)
    (hc : c = ' ' ∨ c = '\n' ∨ c = '\r' ∨ c = '\t' ∨ c = '/') :
    litAlt (c :: r) = none := by
  rcases hc with rfl | rfl | rfl | rfl | rfl <;>
    simp [litAlt, litBoolP, litFloatP, litIntP, litColorP, litStringP, nocaseP,
      digitsP, spanDigits, floatShape, hexPairP, eqIC, lowerNat, isDigitC, isHexC,
      strLookOk, spanNotQB]

theorem litAlt_wsItem_none (cs : Chars) (p : Value × Chars) (h : litAlt cs = some p) :
    wsItem cs = none := by
  cases cs with
  | nil => cases h
  | cons c r =>
    cases hw : wsItem (c :: r) with
    | none => rfl
    | some x =>
      rw [litAlt_ws_head_none c r (wsItem_head c r x hw)] at h
      cases h

theorem definitionP_nil (n iid : Nat) (it : Interner) : definitionP n iid it [] = none := rfl

/-- Trace of a full parse of `<keyword> x = <literal>;` with the literal
region abstract: provided the keyword region rejects whitespace, flags
and accepts exactly the given type specifier, and the literal region is
accepted by the literal alternatives leaving exactly `;`, the lump parse
succeeds with a single declaration carrying that storage type and that
initializer value. -/
theorem lump_trace (kw : Chars) (st : StorageType) (T : Chars) (v : Value) (n iid : Nat)
    (hws : ∀ rest : Chars, wsItem (kw ++ rest) = none)
    (hflag : ∀ rest : Chars, flagP n (kw ++ rest) = none)
    (hts : ∀ rest : Chars, typeSpecP n (kw ++ rest) =
      some (⟨⟨n - (kw ++ rest).length, n - rest.length⟩, st⟩, rest))
    (hlit : litAlt T = some (v, [';'])) :
    lumpP n iid [] (kw ++ (' ' :: 'x' :: ' ' :: '=' :: ' ' :: T)) =
      some (⟨[{ span := ⟨n - (kw ++ (' ' :: 'x' :: ' ' :: '=' :: ' ' :: T)).length, n⟩
                flags := []
                type_spec := ⟨⟨n - (kw ++ (' ' :: 'x' :: ' ' :: '=' :: ' ' :: T)).length,
                               n - (' ' :: 'x' :: ' ' :: '=' :: ' ' :: T).length⟩, st⟩
                name := ⟨⟨n - ('x' :: ' ' :: '=' :: ' ' :: T).length,
                          n - (' ' :: '=' :: ' ' :: T).length⟩, ⟨iid, 0⟩⟩
                init := some ⟨⟨n - ('=' :: ' ' :: T).length, n - 1⟩, v⟩ }]⟩, ["x"], []) := by
  have h0 : wsStar (kw ++ (' ' :: 'x' :: ' ' :: '=' :: ' ' :: T)) =
      kw ++ (' ' :: 'x' :: ' ' :: '=' :: ' ' :: T) := wsStar_of_none _ (hws _)
  have hfs : flagsSep n (kw ++ (' ' :: 'x' :: ' ' :: '=' :: ' ' :: T)) =
      ([], kw ++ (' ' :: 'x' :: ' ' :: '=' :: ' ' :: T)) := by
    unfold flagsSep
    rw [hflag]
  have hw1 : wsStar (' ' :: 'x' :: ' ' :: '=' :: ' ' :: T) =
      'x' :: ' ' :: '=' :: ' ' :: T := by
    refine wsStar_space_cons _ ?_
    simp [wsItem, lineComment, blockComment]
  have hname : nameP n iid [] ('x' :: ' ' :: '=' :: ' ' :: T) =
      some (⟨⟨n - ('x' :: ' ' :: '=' :: ' ' :: T).length,
              n - (' ' :: '=' :: ' ' :: T).length⟩, ⟨iid, 0⟩⟩, ["x"],
            ' ' :: '=' :: ' ' :: T) := by
    simp [nameP, isAlphaC, spanIdent, isIdentC, isDigitC, Interner.intern,
      Interner.tryLookup, Interner.add, lowerNat]
  have hw2 : wsStar (' ' :: '=' :: ' ' :: T) = '=' :: ' ' :: T := by
    refine wsStar_space_cons _ ?_
    simp [wsItem, lineComment, blockComment]
  have hw3 : wsStar (' ' :: T) = T :=
    wsStar_space_cons _ (litAlt_wsItem_none T (v, [';']) hlit)
  have hinit : initP n ('=' :: ' ' :: T) =
      some (⟨⟨n - ('=' :: ' ' :: T).length, n - 1⟩, v⟩, [';']) := by
    simp [initP, hw3, hlit]
  have hsemi : wsStar [';'] = [';'] := by
    refine wsStar_of_none _ ?_
    simp [wsItem, lineComment, blockComment]
  have hdt : defTail n (n - (kw ++ (' ' :: 'x' :: ' ' :: '=' :: ' ' :: T)).length) []
      (⟨⟨n - (kw ++ (' ' :: 'x' :: ' ' :: '=' :: ' ' :: T)).length,
         n - (' ' :: 'x' :: ' ' :: '=' :: ' ' :: T).length⟩, st⟩)
      (⟨⟨n - ('x' :: ' ' :: '=' :: ' ' :: T).length,
         n - (' ' :: '=' :: ' ' :: T).length⟩, ⟨iid, 0⟩⟩)
      ["x"] (' ' :: '=' :: ' ' :: T) =
      some ({ span := ⟨n - (kw ++ (' ' :: 'x' :: ' ' :: '=' :: ' ' :: T)).length, n⟩
              flags := []
              type_spec := ⟨⟨n - (kw ++ (' ' :: 'x' :: ' ' :: '=' :: ' ' :: T)).length,
                             n - (' ' :: 'x' :: ' ' :: '=' :: ' ' :: T).length⟩, st⟩
              name := ⟨⟨n - ('x' :: ' ' :: '=' :: ' ' :: T).length,
                        n - (' ' :: '=' :: ' ' :: T).length⟩, ⟨iid, 0⟩⟩
              init := some ⟨⟨n - ('=' :: ' ' :: T).length, n - 1⟩, v⟩ }, ["x"], []) := by
    unfold defTail
    rw [hw2]
    simp [hinit, hsemi]
  have hdef : definitionP n iid [] (kw ++ (' ' :: 'x' :: ' ' :: '=' :: ' ' :: T)) =
      some ({ span := ⟨n - (kw ++ (' ' :: 'x' :: ' ' :: '=' :: ' ' :: T)).length, n⟩
              flags := []
              type_spec := ⟨⟨n - (kw ++ (' ' :: 'x' :: ' ' :: '=' :: ' ' :: T)).length,
                             n - (' ' :: 'x' :: ' ' :: '=' :: ' ' :: T).length⟩, st⟩
              name := ⟨⟨n - ('x' :: ' ' :: '=' :: ' ' :: T).length,
                        n - (' ' :: '=' :: ' ' :: T).length⟩, ⟨iid, 0⟩⟩
              init := some ⟨⟨n - ('=' :: ' ' :: T).length, n - 1⟩, v⟩ }, ["x"], []) := by
    unfold definitionP
    rw [hfs]
    simp only [hfs, h0, hts, hw1, hname, hdt]
  unfold lumpP defsSep
  rw [h0, hdef]
  unfold defsSepGo
  rw [show wsStar ([] : Chars) = [] from rfl, definitionP_nil]
  simp [show wsStar ([] : Chars) = [] from rfl]

theorem toList_server : "server".toList = ['s', 'e', 'r', 'v', 'e', 'r'] := rfl

theorem toList_user : "user".toList = ['u', 's', 'e', 'r'] := rfl

theorem toList_nosave : "nosave".toList = ['n', 'o', 's', 'a', 'v', 'e'] := rfl

theorem toList_noarchive : "noarchive".toList = ['n', 'o', 'a', 'r', 'c', 'h', 'i', 'v', 'e'] := rfl

theorem toList_cheat : "cheat".toList = ['c', 'h', 'e', 'a', 't'] := rfl

theorem toList_latch : "latch".toList = ['l', 'a', 't', 'c', 'h'] := rfl

theorem toList_int : "int".toList = ['i', 'n', 't'] := rfl

theorem toList_float : "float".toList = ['f', 'l', 'o', 'a', 't'] := rfl

theorem toList_color : "color".toList = ['c', 'o', 'l', 'o', 'r'] := rfl

theorem toList_bool : "bool".toList = ['b', 'o', 'o', 'l'] := rfl

theorem toList_string : "string".toList = ['s', 't', 'r', 'i', 'n', 'g'] := rfl

theorem kw_ws_int (rest : Chars) : wsItem (['i', 'n', 't'] ++ rest) = none := by
  simp [wsItem, lineComment, blockComment]

theorem kw_flag_int (n : Nat) (rest : Chars) : flagP n (['i', 'n', 't'] ++ rest) = none := by
  simp [flagP, nocaseP, toList_server, toList_user, toList_nosave, toList_noarchive,
    toList_cheat, toList_latch, eqIC, lowerNat]

theorem kw_ts_int (n : Nat) (rest : Chars) :
    typeSpecP n (['i', 'n', 't'] ++ rest) =
      some (⟨⟨n - (['i', 'n', 't'] ++ rest).length, n - rest.length⟩, StorageType.Int⟩, rest) := by
  simp [typeSpecP, nocaseP, storageOf, icEq, toList_int, toList_float, toList_color,
    toList_bool, toList_string, eqIC, lowerNat]

theorem kw_ws_float (rest : Chars) : wsItem (['f', 'l', 'o', 'a', 't'] ++ rest) = none := by
  simp [wsItem, lineComment, blockComment]

theorem kw_flag_float (n : Nat) (rest : Chars) :
    flagP n (['f', 'l', 'o', 'a', 't'] ++ rest) = none := by
  simp [flagP, nocaseP, toList_server, toList_user, toList_nosave, toList_noarchive,
    toList_cheat, toList_latch, eqIC, lowerNat]

theorem kw_ts_float (n : Nat) (rest : Chars) :
    typeSpecP n (['f', 'l', 'o', 'a', 't'] ++ rest) =
      some (⟨⟨n - (['f', 'l', 'o', 'a', 't'] ++ rest).length, n - rest.length⟩,
        StorageType.Float⟩, rest) := by
  simp [typeSpecP, nocaseP, storageOf, icEq, toList_int, toList_float, toList_color,
    toList_bool, toList_string, eqIC, lowerNat]

theorem kw_ws_color (rest : Chars) : wsItem (['c', 'o', 'l', 'o', 'r'] ++ rest) = none := by
  simp [wsItem, lineComment, blockComment]

theorem kw_flag_color (n : Nat) (rest : Chars) :
    flagP n (['c', 'o', 'l', 'o', 'r'] ++ rest) = none := by
  simp [flagP, nocaseP, toList_server, toList_user, toList_nosave, toList_noarchive,
    toList_cheat, toList_latch, eqIC, lowerNat]

theorem kw_ts_color (n : Nat) (rest : Chars) :
    typeSpecP n (['c', 'o', 'l', 'o', 'r'] ++ rest) =
      some (⟨⟨n - (['c', 'o', 'l', 'o', 'r'] ++ rest).length, n - rest.length⟩,
        StorageType.Color⟩, rest) := by
  simp [typeSpecP, nocaseP, storageOf, icEq, toList_int, toList_float, toList_color,
    toList_bool, toList_string, eqIC, lowerNat]

theorem kw_ws_bool (rest : Chars) : wsItem (['b', 'o', 'o', 'l'] ++ rest) = none := by
  simp [wsItem, lineComment, blockComment]

theorem kw_flag_bool (n : Nat) (rest : Chars) :
    flagP n (['b', 'o', 'o', 'l'] ++ rest) = none := by
  simp [flagP, nocaseP, toList_server, toList_user, toList_nosave, toList_noarchive,
    toList_cheat, toList_latch, eqIC, lowerNat]

theorem kw_ts_bool (n : Nat) (rest : Chars) :
    typeSpecP n (['b', 'o', 'o', 'l'] ++ rest) =
      some (⟨⟨n - (['b', 'o', 'o', 'l'] ++ rest).length, n - rest.length⟩,
        StorageType.Bool⟩, rest) := by
  simp [typeSpecP, nocaseP, storageOf, icEq, toList_int, toList_float, toList_color,
    toList_bool, toList_string, eqIC, lowerNat]

theorem kw_ws_string (rest : Chars) :
    wsItem (['s', 't', 'r', 'i', 'n', 'g'] ++ rest) = none := by
  simp [wsItem, lineComment, blockComment]

theorem kw_flag_string (n : Nat) (rest : Chars) :
    flagP n (['s', 't', 'r', 'i', 'n', 'g'] ++ rest) = none := by
  simp [flagP, nocaseP, toList_server, toList_user, toList_nosave, toList_noarchive,
    toList_cheat, toList_latch, eqIC, lowerNat]

theorem kw_ts_string (n : Nat) (rest : Chars) :
    typeSpecP n (['s', 't', 'r', 'i', 'n', 'g'] ++ rest) =
      some (⟨⟨n - (['s', 't', 'r', 'i', 'n', 'g'] ++ rest).length, n - rest.length⟩,
        StorageType.String⟩, rest) := by
  simp [typeSpecP, nocaseP, storageOf, icEq, toList_int, toList_float, toList_color,
    toList_bool, toList_string, eqIC, lowerNat]

/-- C9: the parser performs no cross-checking between the declared
storage type and the initializer's value category.  For every type
keyword `T` and every literal text `L` accepted by the literal
alternatives (leaving exactly the terminating `;`), `T x = L;` parses
successfully to a single CVar with storage type `T` and the literal's
value — whatever its category, e.g. `int x = true;` gives storage `Int`
with value `Bool true`. -/
theorem c9_no_type_value_crosscheck (t : StorageType) (L : String) (v : Value)
    (hlit : litAlt (L.toList ++ [';']) = some (v, [';'])) :
    (CVarInfo.parse (typeKeyword t ++ " x = " ++ L ++ ";") [] 0).map
        (fun p => p.1.cvars.map (fun cv =>
          (cv.type_spec.storage_type, cv.init.map (fun i => i.value)))) =
      some [(t, some v)] := by
  cases t with
  | Bool =>
    have hdata : (typeKeyword StorageType.Bool ++ " x = " ++ L ++ ";").toList =
        ['b', 'o', 'o', 'l'] ++ (' ' :: 'x' :: ' ' :: '=' :: ' ' :: (L.toList ++ [';'])) := by
      simp [typeKeyword, String.toList, String.data_append,
        show "bool".data = ['b', 'o', 'o', 'l'] from rfl,
        show " x = ".data = [' ', 'x', ' ', '=', ' '] from rfl,
        show ";".data = [';'] from rfl]
    unfold CVarInfo.parse
    rw [hdata, lump_trace _ _ _ _ _ _ kw_ws_bool (kw_flag_bool _) (kw_ts_bool _) hlit]
    rfl
  | Int =>
    have hdata : (typeKeyword StorageType.Int ++ " x = " ++ L ++ ";").toList =
        ['i', 'n', 't'] ++ (' ' :: 'x' :: ' ' :: '=' :: ' ' :: (L.toList ++ [';'])) := by
      simp [typeKeyword, String.toList, String.data_append,
        show "int".data = ['i', 'n', 't'] from rfl,
        show " x = ".data = [' ', 'x', ' ', '=', ' '] from rfl,
        show ";".data = [';'] from rfl]
    unfold CVarInfo.parse
    rw [hdata, lump_trace _ _ _ _ _ _ kw_ws_int (kw_flag_int _) (kw_ts_int _) hlit]
    rfl
  | Float =>
    have hdata : (typeKeyword StorageType.Float ++ " x = " ++ L ++ ";").toList =
        ['f', 'l', 'o', 'a', 't'] ++ (' ' :: 'x' :: ' ' :: '=' :: ' ' :: (L.toList ++ [';'])) := by
      simp [typeKeyword, String.toList, String.data_append,
        show "float".data = ['f', 'l', 'o', 'a', 't'] from rfl,
        show " x = ".data = [' ', 'x', ' ', '=', ' '] from rfl,
        show ";".data = [';'] from rfl]
    unfold CVarInfo.parse
    rw [hdata, lump_trace _ _ _ _ _ _ kw_ws_float (kw_flag_float _) (kw_ts_float _) hlit]
    rfl
  | String =>
    have hdata : (typeKeyword StorageType.String ++ " x = " ++ L ++ ";").toList =
        ['s', 't', 'r', 'i', 'n', 'g'] ++
          (' ' :: 'x' :: ' ' :: '=' :: ' ' :: (L.toList ++ [';'])) := by
      simp [typeKeyword, String.toList, String.data_append,
        show "string".data = ['s', 't', 'r', 'i', 'n', 'g'] from rfl,
        show " x = ".data = [' ', 'x', ' ', '=', ' '] from rfl,
        show ";".data = [';'] from rfl]
    unfold CVarInfo.parse
    rw [hdata, lump_trace _ _ _ _ _ _ kw_ws_string (kw_flag_string _) (kw_ts_string _) hlit]
    rfl
  | Color =>
    have hdata : (typeKeyword StorageType.Color ++ " x = " ++ L ++ ";").toList =
        ['c', 'o', 'l', 'o', 'r'] ++ (' ' :: 'x' :: ' ' :: '=' :: ' ' :: (L.toList ++ [';'])) := by
      simp [typeKeyword, String.toList, String.data_append,
        show "color".data = ['c', 'o', 'l', 'o', 'r'] from rfl,
        show " x = ".data = [' ', 'x', ' ', '=', ' '] from rfl,
        show ";".data = [';'] from rfl]
    unfold CVarInfo.parse
    rw [hdata, lump_trace _ _ _ _ _ _ kw_ws_color (kw_flag_color _) (kw_ts_color _) hlit]
    rfl

/-- C9 witness: the claim's own example, `int x = true;`, parses to a
CVar with storage type `Int` and value `Bool true`. -/
theorem c9_no_type_value_crosscheck_witness :
    (CVarInfo.parse (typeKeyword StorageType.Int ++ " x = " ++ "true" ++ ";") [] 0).map
        (fun p => p.1.cvars.map (fun cv =>
          (cv.type_spec.storage_type, cv.init.map (fun i => i.value)))) =
      some [(StorageType.Int, some (Value.Bool true))] :=
  c9_no_type_value_crosscheck StorageType.Int "true" (Value.Bool true) (by decide)

end DoomFront
